import Mathlib

/-
Verification of the caddy-webdav handler module (src/webdav.go) against its
natural-language specification.

The single source file is an adapter around the WebDAV handler of the
golang.org/x/net/webdav package.  The definitions below are a shallow
embedding of that adapter: pure Go library helpers (path.Clean, path.Dir,
filepath.Join, the Dir filesystem resolution of x/net/webdav, the memLS
lock table of x/net/webdav) become Lean functions on lists of characters,
and the stateful ServeHTTP method becomes a function from a module value,
an environment of external effects (replacer, filesystem stat oracle,
MkdirAll outcome, delegated handler behaviour) and a request to an
explicit outcome record.
-/

namespace CaddyWebdav

/-- Result of a Stat call on the underlying operating-system filesystem:
success carrying the directory flag of the file info, a does-not-exist
error (the case recognised by os.IsNotExist), or any other error. -/
inductive StatRes where
  | ok (isDir : Bool)
  | notExist
  | otherErr
deriving DecidableEq

/-- The NUL character, rejected by the path resolution of webdav.Dir. -/
def nulChar : Char := Char.ofNat 0

/-- Split a list of characters at every slash, keeping empty segments,
as strings.Split with separator slash does in Go. -/
def splitSlashAux (cur : List Char) : List Char → List (List Char)
  | [] => [cur.reverse]
  | c :: rest =>
    if c = '/' then cur.reverse :: splitSlashAux [] rest
    else splitSlashAux (c :: cur) rest

/-- Join segments with a slash between consecutive segments. -/
def joinSlash : List (List Char) → List Char
  | [] => []
  | [s] => s
  | s :: rest => s ++ '/' :: joinSlash rest

/-- The two-character segment of two dots. -/
def dotdot : List Char := ['.', '.']

/-- One step of the segment processing of Go path.Clean: a dot-dot segment
pops the previous segment (or is dropped at the root of a rooted path, or
kept at the head of a relative path), any other segment is pushed. -/
def cleanFold (rooted : Bool) (acc : List (List Char)) (s : List Char) : List (List Char) :=
  if s = dotdot then
    match acc with
    | [] => if rooted then [] else [dotdot]
    | a :: rest => if a = dotdot then s :: acc else rest
  else s :: acc

/-- Go path.Clean, modelled segment-wise: the empty path cleans to a dot;
otherwise the path is split at slashes, empty and single-dot segments are
dropped, dot-dot segments are resolved by cleanFold, and the result is
rejoined, restoring the leading slash of a rooted path. -/
def goPathClean (p : String) : String :=
  match p.data with
  | [] => "."
  | c0 :: _ =>
    let rooted : Bool := c0 = '/'
    let segs := (splitSlashAux [] p.data).filter
      (fun s => decide (s ≠ [] ∧ s ≠ ['.']))
    let out := (segs.foldl (cleanFold rooted) []).reverse
    let joined := joinSlash out
    if rooted then String.mk ('/' :: joined)
    else if joined = [] then "." else String.mk joined

/-- Index of the last slash of a character list, if any. -/
def lastSlashPos : List Char → Option Nat
  | [] => none
  | c :: rest =>
    match lastSlashPos rest with
    | some n => some (n + 1)
    | none => if c = '/' then some 0 else none

/-- Go path.Dir: everything up to and including the final slash, cleaned;
a path without a slash has directory dot. -/
def goPathDir (p : String) : String :=
  match lastSlashPos p.data with
  | none => goPathClean ""
  | some i => goPathClean (String.mk (p.data.take (i + 1)))

/-- The slashClean helper of golang.org/x/net/webdav: a name that is empty
or does not begin with a slash gets a slash prepended, then path.Clean. -/
def slashClean (name : String) : String :=
  match name.data with
  | [] => goPathClean (String.mk ['/'])
  | c :: _ =>
    if c = '/' then goPathClean name
    else goPathClean (String.mk ('/' :: name.data))

/-- Go filepath.Join of two elements on a slash-separated system: empty
elements are skipped and the slash-joined remainder is cleaned. -/
def goFilepathJoin (a b : String) : String :=
  if a.data = [] then (if b.data = [] then "" else goPathClean b)
  else goPathClean (String.mk (a.data ++ '/' :: b.data))

/-- The resolve method of webdav.Dir from golang.org/x/net/webdav on a
slash-separator system: a name containing NUL is rejected (the Go code
returns the empty string, treated as a does-not-exist error by Dir.Stat),
an empty base directory stands for dot, and the slash-cleaned name is
joined onto the base directory. -/
def dirResolve (d name : String) : Option String :=
  if name.data.contains nulChar then none
  else
    some (goFilepathJoin (if d.data = [] then "." else d) (slashClean name))

/-- The Stat method of webdav.Dir: resolve the name, a failed resolution is
a does-not-exist error, otherwise Stat the resolved operating-system path.
Returns the operating-system path consulted (if any) with the result. -/
def dirStat (fsStat : String → StatRes) (root name : String) : Option String × StatRes :=
  match dirResolve root name with
  | none => (none, StatRes.notExist)
  | some p => (some p, fsStat p)

/-- A header list in request order; Go canonical keys are used verbatim. -/
def headerGet (hs : List (String × String)) (k : String) : String :=
  match hs.find? (fun e => e.1 == k) with
  | some e => e.2
  | none => ""

/-- Header.Add appends a value for the key; Get keeps returning the first. -/
def headerAdd (hs : List (String × String)) (k v : String) : List (String × String) :=
  hs ++ [(k, v)]

/-- An HTTP request as the adapter sees it: method, URL path and headers. -/
structure Request where
  method : String
  urlPath : String
  headers : List (String × String)
deriving DecidableEq

/-- The observable state of an HTTP response writer: whether WriteHeader
ran, the status, the response headers and the body bytes written. -/
structure RW where
  wroteHeader : Bool
  status : Nat
  headers : List (String × String)
  body : String
deriving DecidableEq

/-- The fresh response writer handed to the handler. -/
def rwInit : RW := ⟨false, 200, [], ""⟩

/-- An action the delegated handler can perform on the response writer. -/
inductive WAct where
  | writeHeader (code : Nat)
  | setHeader (k v : String)
  | write (data : String)
deriving DecidableEq

/-- Apply one writer action.  When wrapped is true the writer is the
emptyBodyResponseWriter of src/webdav.go line 144: its Write discards the
data (returning length zero and no error in Go), while header operations
and WriteHeader reach the embedded writer unchanged. -/
def applyAct (wrapped : Bool) (rw : RW) : WAct → RW
  | WAct.writeHeader c =>
    if rw.wroteHeader then rw else { rw with wroteHeader := true, status := c }
  | WAct.setHeader k v => { rw with headers := headerAdd rw.headers k v }
  | WAct.write s => if wrapped then rw else { rw with body := rw.body ++ s }

/-- Apply a sequence of writer actions. -/
def applyActs (wrapped : Bool) (rw : RW) (acts : List WAct) : RW :=
  acts.foldl (applyAct wrapped) rw

/-- Go http.Error: set the plain-text content type headers, write the
status code and write the message followed by a newline to the body. -/
def httpError (rw : RW) (msg : String) (code : Nat) : RW :=
  let rw1 := { rw with headers :=
    rw.headers ++ [("Content-Type", "text/plain; charset=utf-8"),
                   ("X-Content-Type-Options", "nosniff")] }
  let rw2 := applyAct false rw1 (WAct.writeHeader code)
  applyAct false rw2 (WAct.write (msg ++ "\n"))

/-- A node of the in-memory lock table of golang.org/x/net/webdav memLS:
the token (empty when the node only carries reference counts for locks on
descendants), the reference count, and the zero-depth flag of the lock
details held at this node. -/
structure MemNode where
  token : String
  refCount : Nat
  zeroDepth : Bool
deriving DecidableEq

/-- The memLS lock table: an association list keyed by slash-cleaned path
standing for the byName map, and the token generation counter.  The token
index, expiry heap and lazy expiry reaping of the Go code are bookkeeping
for Refresh, Unlock and timeouts and are not needed by the claims settled
here, which concern lock creation conflicts. -/
structure MemLS where
  byName : List (String × MemNode)
  gen : Nat
deriving DecidableEq

/-- The lock table NewMemLS returns: empty, generation zero. -/
def memLSEmpty : MemLS := ⟨[], 0⟩

/-- Lookup of the byName map. -/
def lookupNode (m : List (String × MemNode)) (k : String) : Option MemNode :=
  (m.find? (fun e => e.1 == k)).map (fun e => e.2)

/-- The parent step of walkToRoot: cut the name at the last slash, an empty
remainder (or a name without slashes, unreachable for rooted names) being
the root. -/
def parentOf (name : String) : String :=
  match lastSlashPos name.data with
  | none => "/"
  | some i => if i = 0 then "/" else String.mk (name.data.take i)

/-- Fuel-bounded walk from a name to the root, listing the name and all its
ancestors ending with the root, as walkToRoot of x/net/webdav visits them. -/
def chainAux : Nat → String → List String
  | 0, _ => []
  | Nat.succ fuel, name =>
    if name = "/" then ["/"] else name :: chainAux fuel (parentOf name)

/-- The list of names walkToRoot visits, first the name itself. -/
def parentChain (name : String) : List String :=
  chainAux (name.length + 1) name

/-- The per-node check of memLS.canCreate: a missing node is fine; at the
target node any held token or (for an infinite-depth request) any node
existence at all conflicts; at an ancestor a held token conflicts unless
that lock has zero depth. -/
def canCreateAux (m : List (String × MemNode)) (zeroDepth : Bool) :
    List String → Bool → Bool
  | [], _ => true
  | n0 :: rest, first =>
    (match lookupNode m n0 with
     | none => true
     | some n =>
       if first then
         if n.token ≠ "" then false
         else if zeroDepth = false then false
         else true
       else
         if n.token ≠ "" ∧ n.zeroDepth = false then false
         else true)
    && canCreateAux m zeroDepth rest false

/-- memLS.canCreate: every name from the target up to the root must pass. -/
def canCreate (m : List (String × MemNode)) (name : String) (zeroDepth : Bool) : Bool :=
  canCreateAux m zeroDepth (parentChain name) true

/-- The node creation of memLS.create along the walk: bump the reference
count of an existing node or insert a fresh count-one node. -/
def bumpNode (m : List (String × MemNode)) (k : String) : List (String × MemNode) :=
  match m with
  | [] => [(k, ⟨"", 1, false⟩)]
  | e :: rest =>
    if e.1 = k then (e.1, { e.2 with refCount := e.2.refCount + 1 }) :: rest
    else e :: bumpNode rest k

/-- Record the granted token and lock details on the target node. -/
def setLock (m : List (String × MemNode)) (k tok : String) (zd : Bool) :
    List (String × MemNode) :=
  match m with
  | [] => []
  | e :: rest =>
    if e.1 = k then (e.1, { e.2 with token := tok, zeroDepth := zd }) :: rest
    else e :: setLock rest k tok zd

/-- memLS.Create: slash-clean the requested root, fail (ErrLocked, here
none) unless canCreate allows it, otherwise register nodes along the walk
to the root, draw the next token from the generation counter and hold the
lock at the target node. -/
def memCreate (s : MemLS) (root0 : String) (zeroDepth : Bool) : MemLS × Option String :=
  let root := slashClean root0
  if canCreate s.byName root zeroDepth then
    let m := (parentChain root).foldl bumpNode s.byName
    let tok := toString (s.gen + 1)
    (⟨setLock m root tok zeroDepth, s.gen + 1⟩, some tok)
  else (s, none)

/-- The lock request body as parsed by readLockInfo of x/net/webdav:
which of the exclusive, shared and write elements are present. -/
structure LockInfo where
  exclusive : Bool
  shared : Bool
  write : Bool
deriving DecidableEq

/-- The validation of readLockInfo in the xml codec of x/net/webdav: only
exclusive write locks are supported, anything else is answered with 501
Not Implemented.  Returns the HTTP status, zero meaning supported. -/
def readLockInfoStatus (li : LockInfo) : Nat :=
  if li.exclusive = false ∨ li.shared = true ∨ li.write = false then 501 else 0

/-- The WebDAV module value of src/webdav.go: configured root, configured
path base to strip (field Prefix in the Go source), and the lock system
installed by Provision (none before Provision runs). -/
structure WebDAVModule where
  root : String
  pfx : String
  lockSystem : Option MemLS

/-- Provision (src/webdav.go lines 70-79): install a fresh in-memory lock
system and default an empty root to the \x7bhttp.vars.root\x7d placeholder. -/
def provision (wd : WebDAVModule) : WebDAVModule :=
  { wd with lockSystem := some memLSEmpty,
            root := if wd.root = "" then "\x7bhttp.vars.root\x7d" else wd.root }

/-- The webdav.Handler value built on every request (src/webdav.go lines
90-102): the stripped path base, the root filesystem and the lock system. -/
structure WdHandlerCfg where
  pfx : String
  root : String
  lockSystem : Option MemLS
deriving DecidableEq

/-- The external effects of one request: the Caddy placeholder replacer
(input and empty-placeholder substitute to output), the Stat oracle of the
operating-system filesystem, the outcome MkdirAll would report if called,
the behaviour of the delegated webdav.Handler as writer actions, and the
error the delegated handler would report to its logging callback. -/
structure Env where
  repl : String → String → String
  fsStat : String → StatRes
  mkdirAllErr : Option String
  delegate : Request → List WAct
  delegateErr : Option String

/-- The logging callback installed into the handler (src/webdav.go lines
94-101): log one internal handler error entry exactly when the error is
non-nil; it touches nothing else. -/
def loggerCallback (err : Option String) : List String :=
  match err with
  | some _ => ["internal handler error"]
  | none => []

/-- Everything observable about one ServeHTTP call: the handler value
built, the (possibly rewritten) request handed to the delegate, the
operating-system paths the adapter itself passed to Stat, the MkdirAll
calls it made (path and mode), the log entries, whether the next
middleware ran, whether the delegate ran, the final writer state and the
returned error. -/
structure Outcome where
  handler : WdHandlerCfg
  request2 : Request
  statCalls : List String
  mkdirCalls : List (String × Nat)
  logs : List String
  nextCalled : Bool
  delegated : Bool
  rw : RW
  ret : Option String

/-- The handler value of src/webdav.go lines 90-102 after placeholder
replacement of root (empty substitute dot) and of the path base (empty
substitute empty). -/
def mkHandler (wd : WebDAVModule) (env : Env) : WdHandlerCfg :=
  ⟨env.repl wd.pfx "", env.repl wd.root ".", wd.lockSystem⟩

/-- Delegation tail of ServeHTTP (src/webdav.go lines 134-140): install the
body-discarding writer exactly when the current, possibly rewritten,
method is HEAD, run the delegate, invoke its logging callback, return nil. -/
def deliver (h : WdHandlerCfg) (env : Env) (r2 : Request) (sc : List String)
    (mk : List (String × Nat)) : Outcome :=
  { handler := h, request2 := r2, statCalls := sc, mkdirCalls := mk,
    logs := loggerCallback env.delegateErr, nextCalled := false,
    delegated := true,
    rw := applyActs (r2.method == "HEAD") rwInit (env.delegate r2),
    ret := none }

/-- ServeHTTP of src/webdav.go lines 81-141.  A GET or HEAD whose URL path
Stats (through webdav.Dir of the replaced root) to a directory is rewritten
to PROPFIND, adding a Depth header of 1 when Header.Get finds none.  A PUT
or POST whose parent directory (path.Dir of the URL path appended to the
replaced root) Stats to a does-not-exist error triggers MkdirAll with mode
0o755; a MkdirAll failure is logged, answered with a 500 generic message
and returned without delegation.  Every other path delegates to the
webdav.Handler, never calling the next middleware and returning nil. -/
def serveHTTP (wd : WebDAVModule) (env : Env) (r : Request) : Outcome :=
  if r.method = "GET" ∨ r.method = "HEAD" then
    deliver (mkHandler wd env) env
      (if (dirStat env.fsStat (env.repl wd.root ".") r.urlPath).2 = StatRes.ok true then
        { r with method := "PROPFIND",
                 headers :=
                   if headerGet r.headers "Depth" = "" then
                     headerAdd r.headers "Depth" "1"
                   else r.headers }
       else r)
      (dirStat env.fsStat (env.repl wd.root ".") r.urlPath).1.toList []
  else if r.method = "PUT" ∨ r.method = "POST" then
    if env.fsStat (env.repl wd.root "." ++ goPathDir r.urlPath) = StatRes.notExist then
      match env.mkdirAllErr with
      | some e =>
        { handler := mkHandler wd env, request2 := r,
          statCalls := [env.repl wd.root "." ++ goPathDir r.urlPath],
          mkdirCalls := [(env.repl wd.root "." ++ goPathDir r.urlPath, 0o755)],
          logs := ["error creating directories"],
          nextCalled := false, delegated := false,
          rw := httpError rwInit "Error creating directories" 500,
          ret := some e }
      | none =>
        deliver (mkHandler wd env) env r
          [env.repl wd.root "." ++ goPathDir r.urlPath]
          [(env.repl wd.root "." ++ goPathDir r.urlPath, 0o755)]
    else
      deliver (mkHandler wd env) env r
        [env.repl wd.root "." ++ goPathDir r.urlPath] []
  else deliver (mkHandler wd env) env r [] []

/-- Leading-part test on character lists, used by the spec-side model of
path-base stripping. -/
def listStarts : List Char → List Char → Bool
  | [], _ => true
  | _ :: _, [] => false
  | p :: ps, c :: cs => (p == c) && listStarts ps cs

/-- Modelled from the spec: the spec says the configured URL path base is
stripped from the request path before resolving the resource against the
root, and the claim under test says the adapter directory check consults
that stripped resolution.  This definition follows those words (strip the
base when it leads the path, an emptied path becoming the root slash, then
resolve against the root) and exists only to be compared with the path the
source code actually consults. -/
def specStatPath (root p urlPath : String) : Option String :=
  let stripped :=
    if p.data = [] then urlPath
    else if listStarts p.data urlPath.data then
      (match urlPath.data.drop p.data.length with
       | [] => String.mk ['/']
       | rest => String.mk rest)
    else urlPath
  dirResolve root stripped

/-- A key absent from a header list makes Get answer the empty string. -/
theorem headerGet_absent (hs : List (String × String)) (k : String)
    (h : ∀ e ∈ hs, e.1 ≠ k) : headerGet hs k = "" := by
  induction hs with
  | nil => rfl
  | cons e rest ih =>
    unfold headerGet
    rw [List.find?_cons_of_neg _ (by simpa using h e (by simp))]
    exact ih (fun x hx => h x (by simp [hx]))

/-- Adding a value for a key absent from a header list makes Get find it. -/
theorem headerGet_add_absent (hs : List (String × String)) (k v : String)
    (h : ∀ e ∈ hs, e.1 ≠ k) : headerGet (headerAdd hs k v) k = v := by
  induction hs with
  | nil => simp [headerAdd, headerGet]
  | cons e rest ih =>
    show headerGet ((e :: rest) ++ [(k, v)]) k = v
    rw [List.cons_append]
    show headerGet (e :: (rest ++ [(k, v)])) k = v
    unfold headerGet
    rw [List.find?_cons_of_neg _ (by simpa using h e (by simp))]
    exact ih (fun x hx => h x (by simp [hx]))

/-- PUT and POST are neither GET nor HEAD. -/
theorem put_post_not_get_head {m : String} (hm : m = "PUT" ∨ m = "POST") :
    ¬ (m = "GET" ∨ m = "HEAD") := by
  intro hc
  rcases hm with h | h <;> rcases hc with hc | hc <;> rw [h] at hc <;>
    exact absurd hc (by decide)

/-- One writer action through the body-discarding wrapper: header state and
status advance exactly as without the wrapper, the body stays put. -/
theorem applyAct_wrapped_step (a : WAct) (rw1 rw2 : RW)
    (h1 : rw1.wroteHeader = rw2.wroteHeader) (h2 : rw1.status = rw2.status)
    (h3 : rw1.headers = rw2.headers) :
    (applyAct true rw1 a).wroteHeader = (applyAct false rw2 a).wroteHeader ∧
    (applyAct true rw1 a).status = (applyAct false rw2 a).status ∧
    (applyAct true rw1 a).headers = (applyAct false rw2 a).headers ∧
    (applyAct true rw1 a).body = rw1.body := by
  cases a with
  | writeHeader c =>
    simp only [applyAct]
    rw [h1]
    by_cases hw : rw2.wroteHeader = true
    · simp [hw, h1, h2, h3]
    · simp [hw, h1, h2, h3]
  | setHeader k v => simp [applyAct, h1, h2, h3]
  | write s => simp [applyAct, h1, h2, h3]

/-- A run of writer actions through the body-discarding wrapper: the final
header state and status agree with the unwrapped run, the body is never
touched. -/
theorem applyActs_wrapped (acts : List WAct) :
    ∀ rw1 rw2 : RW, rw1.wroteHeader = rw2.wroteHeader → rw1.status = rw2.status →
      rw1.headers = rw2.headers →
      (applyActs true rw1 acts).wroteHeader = (applyActs false rw2 acts).wroteHeader ∧
      (applyActs true rw1 acts).status = (applyActs false rw2 acts).status ∧
      (applyActs true rw1 acts).headers = (applyActs false rw2 acts).headers ∧
      (applyActs true rw1 acts).body = rw1.body := by
  induction acts with
  | nil =>
    intro rw1 rw2 h1 h2 h3
    exact ⟨h1, h2, h3, rfl⟩
  | cons a rest ih =>
    intro rw1 rw2 h1 h2 h3
    have hstep := applyAct_wrapped_step a rw1 rw2 h1 h2 h3
    have hrest := ih (applyAct true rw1 a) (applyAct false rw2 a)
      hstep.1 hstep.2.1 hstep.2.2.1
    refine ⟨?_, ?_, ?_, ?_⟩
    · simpa [applyActs, List.foldl_cons] using hrest.1
    · simpa [applyActs, List.foldl_cons] using hrest.2.1
    · simpa [applyActs, List.foldl_cons] using hrest.2.2.1
    · calc (applyActs true rw1 (a :: rest)).body
          = (applyActs true (applyAct true rw1 a) rest).body := by
            simp [applyActs, List.foldl_cons]
      _ = (applyAct true rw1 a).body := hrest.2.2.2
      _ = rw1.body := hstep.2.2.2

/-- The first component of the Stat of webdav.Dir is the resolved path. -/
theorem dirStat_fst (f : String → StatRes) (root n : String) :
    (dirStat f root n).1 = dirResolve root n := by
  unfold dirStat
  cases h : dirResolve root n <;> simp [h]

/-- Claim C1: a GET or HEAD whose URL path Stats (through the filesystem of
the handler) to an existing directory is rewritten to PROPFIND and
delegated; a missing Depth header is set to 1, a present nonempty Depth
header leaves the header list unchanged. -/
theorem c1_get_head_on_directory (wd : WebDAVModule) (env : Env) (r : Request)
    (hm : r.method = "GET" ∨ r.method = "HEAD")
    (hd : (dirStat env.fsStat (env.repl wd.root ".") r.urlPath).2 = StatRes.ok true) :
    (serveHTTP wd env r).request2.method = "PROPFIND" ∧
    (serveHTTP wd env r).delegated = true ∧
    (serveHTTP wd env r).request2.headers =
      (if headerGet r.headers "Depth" = "" then headerAdd r.headers "Depth" "1"
       else r.headers) ∧
    (headerGet r.headers "Depth" ≠ "" →
      (serveHTTP wd env r).request2.headers = r.headers) ∧
    ((∀ e ∈ r.headers, e.1 ≠ "Depth") →
      headerGet (serveHTTP wd env r).request2.headers "Depth" = "1") := by
  unfold serveHTTP
  rw [if_pos hm, if_pos hd]
  refine ⟨rfl, rfl, rfl, ?_, ?_⟩
  · intro hne
    simp only [deliver]
    rw [if_neg hne]
  · intro habs
    have hget : headerGet r.headers "Depth" = "" := headerGet_absent r.headers "Depth" habs
    simp only [deliver]
    rw [if_pos hget]
    exact headerGet_add_absent r.headers "Depth" "1" habs

def wdC1 : WebDAVModule := ⟨"/srv", "", none⟩

def envC1 : Env := ⟨fun s _ => s, fun _ => StatRes.ok true, none, fun _ => [], none⟩

def rC1 : Request := ⟨"GET", "/a", []⟩

/-- Witness for C1: a concrete GET on a directory without a Depth header is
rewritten to PROPFIND with Depth 1. -/
theorem c1_get_head_on_directory_witness :
    (serveHTTP wdC1 envC1 rC1).request2.method = "PROPFIND" ∧
    headerGet (serveHTTP wdC1 envC1 rC1).request2.headers "Depth" = "1" :=
  have h := c1_get_head_on_directory wdC1 envC1 rC1 (Or.inl rfl) rfl
  ⟨h.1, h.2.2.2.2 (by simp [rC1])⟩

/-- Claim C3: a PUT or POST whose parent directory (directory part of the
URL path appended to the replaced root) Stats to a does-not-exist error
triggers one MkdirAll call on that path with mode 0o755, after which the
unchanged request is delegated and nil is returned. -/
theorem c3_parent_creation (wd : WebDAVModule) (env : Env) (r : Request)
    (hm : r.method = "PUT" ∨ r.method = "POST")
    (hs : env.fsStat (env.repl wd.root "." ++ goPathDir r.urlPath) = StatRes.notExist)
    (hmk : env.mkdirAllErr = none) :
    (serveHTTP wd env r).mkdirCalls =
      [(env.repl wd.root "." ++ goPathDir r.urlPath, 0o755)] ∧
    (serveHTTP wd env r).delegated = true ∧
    (serveHTTP wd env r).request2 = r ∧
    (serveHTTP wd env r).ret = none := by
  unfold serveHTTP
  rw [if_neg (put_post_not_get_head hm), if_pos hm, if_pos hs, hmk]
  exact ⟨rfl, rfl, rfl, rfl⟩

def wdC3 : WebDAVModule := ⟨"/srv", "", none⟩

def envC3 : Env := ⟨fun s _ => s, fun _ => StatRes.notExist, none, fun _ => [], none⟩

def rC3 : Request := ⟨"PUT", "/x/y.txt", []⟩

/-- Witness for C3: a PUT to a file whose parent is absent creates the
parent under the root with mode 0o755 and still delegates. -/
theorem c3_parent_creation_witness :
    (serveHTTP wdC3 envC3 rC3).mkdirCalls = [("/srv/x", 0o755)] ∧
    (serveHTTP wdC3 envC3 rC3).delegated = true :=
  have h := c3_parent_creation wdC3 envC3 rC3 (Or.inl rfl) rfl rfl
  ⟨h.1, h.2.1⟩

/-- Claim C5: a failing MkdirAll on a PUT or POST is logged, answered with
status 500 and the fixed body of the generic message (independent of root
and request path, hence naming no filesystem path), the error is returned,
and the WebDAV handler is not invoked. -/
theorem c5_mkdir_failure (wd : WebDAVModule) (env : Env) (r : Request) (e : String)
    (hm : r.method = "PUT" ∨ r.method = "POST")
    (hs : env.fsStat (env.repl wd.root "." ++ goPathDir r.urlPath) = StatRes.notExist)
    (hmk : env.mkdirAllErr = some e) :
    (serveHTTP wd env r).delegated = false ∧
    (serveHTTP wd env r).ret = some e ∧
    (serveHTTP wd env r).rw.status = 500 ∧
    (serveHTTP wd env r).rw.body = "Error creating directories\n" ∧
    (serveHTTP wd env r).logs = ["error creating directories"] ∧
    (serveHTTP wd env r).nextCalled = false := by
  unfold serveHTTP
  rw [if_neg (put_post_not_get_head hm), if_pos hm, if_pos hs, hmk]
  exact ⟨rfl, rfl, rfl, rfl, rfl, rfl⟩

def wdC5 : WebDAVModule := ⟨"/srv", "", none⟩

def envC5 : Env := ⟨fun s _ => s, fun _ => StatRes.notExist, some "disk failure",
  fun _ => [], none⟩

def rC5 : Request := ⟨"PUT", "/x/y.txt", []⟩

/-- Witness for C5: a concrete PUT with failing MkdirAll yields 500 with
the generic body and no delegation. -/
theorem c5_mkdir_failure_witness :
    (serveHTTP wdC5 envC5 rC5).rw.status = 500 ∧
    (serveHTTP wdC5 envC5 rC5).rw.body = "Error creating directories\n" ∧
    (serveHTTP wdC5 envC5 rC5).ret = some "disk failure" ∧
    (serveHTTP wdC5 envC5 rC5).delegated = false :=
  have h := c5_mkdir_failure wdC5 envC5 rC5 "disk failure" (Or.inl rfl) rfl rfl
  ⟨h.2.2.1, h.2.2.2.1, h.2.1, h.1⟩

/-- Claim C9: ServeHTTP never calls the next middleware, and returns nil
for every request except a PUT or POST whose parent Stats to does-not-exist
and whose MkdirAll fails, in which case that error is returned. -/
theorem c9_terminal_middleware (wd : WebDAVModule) (env : Env) (r : Request) :
    (serveHTTP wd env r).nextCalled = false ∧
    (serveHTTP wd env r).ret =
      (if (r.method = "PUT" ∨ r.method = "POST") ∧
          env.fsStat (env.repl wd.root "." ++ goPathDir r.urlPath) = StatRes.notExist
       then env.mkdirAllErr else none) := by
  unfold serveHTTP
  by_cases h1 : r.method = "GET" ∨ r.method = "HEAD"
  · have hni : ¬ ((r.method = "PUT" ∨ r.method = "POST") ∧
        env.fsStat (env.repl wd.root "." ++ goPathDir r.urlPath) = StatRes.notExist) :=
      fun hc => put_post_not_get_head hc.1 h1
    rw [if_pos h1, if_neg hni]
    exact ⟨rfl, rfl⟩
  · rw [if_neg h1]
    by_cases h2 : r.method = "PUT" ∨ r.method = "POST"
    · rw [if_pos h2]
      by_cases h3 : env.fsStat (env.repl wd.root "." ++ goPathDir r.urlPath) = StatRes.notExist
      · rw [if_pos h3, if_pos ⟨h2, h3⟩]
        cases hmk : env.mkdirAllErr <;> exact ⟨rfl, rfl⟩
      · rw [if_neg h3, if_neg (fun hc => h3 hc.2)]
        exact ⟨rfl, rfl⟩
    · rw [if_neg h2, if_neg (fun hc => h2 hc.1)]
      exact ⟨rfl, rfl⟩

/-- Claim C10: a PUT or POST whose parent Stat does not report
does-not-exist (it exists as directory or file, or Stat fails otherwise)
causes no MkdirAll call: the unchanged request is delegated and nil
returned, leaving any conflict to the WebDAV handler. -/
theorem c10_no_adapter_mutation (wd : WebDAVModule) (env : Env) (r : Request)
    (hm : r.method = "PUT" ∨ r.method = "POST")
    (hs : env.fsStat (env.repl wd.root "." ++ goPathDir r.urlPath) ≠ StatRes.notExist) :
    (serveHTTP wd env r).mkdirCalls = [] ∧
    (serveHTTP wd env r).delegated = true ∧
    (serveHTTP wd env r).request2 = r ∧
    (serveHTTP wd env r).ret = none := by
  unfold serveHTTP
  rw [if_neg (put_post_not_get_head hm), if_pos hm, if_neg hs]
  exact ⟨rfl, rfl, rfl, rfl⟩

def wdC10 : WebDAVModule := ⟨"/srv", "", none⟩

def envC10 : Env := ⟨fun s _ => s, fun _ => StatRes.ok false, none, fun _ => [], none⟩

def rC10 : Request := ⟨"POST", "/x/y.txt", []⟩

/-- Witness for C10: a POST whose parent exists as a regular file performs
no directory creation and delegates. -/
theorem c10_no_adapter_mutation_witness :
    (serveHTTP wdC10 envC10 rC10).mkdirCalls = [] ∧
    (serveHTTP wdC10 envC10 rC10).delegated = true :=
  have h := c10_no_adapter_mutation wdC10 envC10 rC10 (Or.inr rfl) (by decide)
  ⟨h.1, h.2.1⟩

def wdC2x : WebDAVModule := ⟨"/srv", "", none⟩

def envC2x : Env := ⟨fun s _ => s,
  fun p => if p = "/srv/a" then StatRes.ok true else StatRes.notExist,
  none, fun _ => [WAct.writeHeader 207, WAct.write "X"], none⟩

def rC2x : Request := ⟨"HEAD", "/a", []⟩

/-- Counterexample to C2: a HEAD on an existing directory is rewritten to
PROPFIND before the suppression check, so the body-discarding writer is
never installed and the bytes the delegated handler writes reach the
client: the body is X, not empty. -/
theorem c2_counterexample :
    rC2x.method = "HEAD" ∧
    (serveHTTP wdC2x envC2x rC2x).rw.body = "X" ∧
    (serveHTTP wdC2x envC2x rC2x).rw.body ≠ "" := by
  refine ⟨rfl, rfl, ?_⟩
  decide

/-- Claim C2 as amended: a HEAD request whose target does not Stat to an
existing directory is delegated unchanged through the body-discarding
writer: the client body is empty while status and headers are exactly
those the delegated handling produces unwrapped (a HEAD on an existing
directory is instead rewritten to PROPFIND before the suppression check
and its body is written unsuppressed, as the counterexample shows). -/
theorem c2_amended_head_body (wd : WebDAVModule) (env : Env) (r : Request)
    (hm : r.method = "HEAD")
    (hd : (dirStat env.fsStat (env.repl wd.root ".") r.urlPath).2 ≠ StatRes.ok true) :
    (serveHTTP wd env r).request2 = r ∧
    (serveHTTP wd env r).rw.body = "" ∧
    (serveHTTP wd env r).rw.status = (applyActs false rwInit (env.delegate r)).status ∧
    (serveHTTP wd env r).rw.headers = (applyActs false rwInit (env.delegate r)).headers := by
  unfold serveHTTP
  rw [if_pos (Or.inr hm), if_neg hd]
  have hb : (r.method == "HEAD") = true := by simp [hm]
  have hw := applyActs_wrapped (env.delegate r) rwInit rwInit rfl rfl rfl
  refine ⟨rfl, ?_, ?_, ?_⟩
  · show (applyActs (r.method == "HEAD") rwInit (env.delegate r)).body = ""
    rw [hb]
    exact hw.2.2.2
  · show (applyActs (r.method == "HEAD") rwInit (env.delegate r)).status =
      (applyActs false rwInit (env.delegate r)).status
    rw [hb]
    exact hw.2.1
  · show (applyActs (r.method == "HEAD") rwInit (env.delegate r)).headers =
      (applyActs false rwInit (env.delegate r)).headers
    rw [hb]
    exact hw.2.2.1

def wdC2 : WebDAVModule := ⟨"/srv", "", none⟩

def envC2 : Env := ⟨fun s _ => s, fun _ => StatRes.notExist, none,
  fun _ => [WAct.setHeader "Content-Type" "text/plain", WAct.writeHeader 200,
            WAct.write "hello"], none⟩

def rC2 : Request := ⟨"HEAD", "/f.txt", []⟩

/-- Witness for the amended C2: a HEAD on a plain file gets the status and
headers of the delegated handling and an empty body. -/
theorem c2_amended_head_body_witness :
    (serveHTTP wdC2 envC2 rC2).rw.body = "" ∧
    (serveHTTP wdC2 envC2 rC2).rw.status = 200 ∧
    (serveHTTP wdC2 envC2 rC2).rw.headers = [("Content-Type", "text/plain")] :=
  have h := c2_amended_head_body wdC2 envC2 rC2 rfl (by decide)
  ⟨h.2.1, h.2.2.1, h.2.2.2⟩

def wdC4 : WebDAVModule := ⟨"/srv", "/dav", none⟩

def envC4 : Env := ⟨fun s _ => s,
  fun p => if p = "/srv/a" then StatRes.ok true else StatRes.notExist,
  none, fun _ => [], none⟩

def rC4 : Request := ⟨"GET", "/dav/a", []⟩

/-- Counterexample to C4: with base /dav, root /srv and request path
/dav/a, the path the spec says the directory check consults is /srv/a (a
directory here), but the adapter Stats the unstripped /srv/dav/a, so the
GET is not rewritten to PROPFIND. -/
theorem c4_counterexample :
    specStatPath "/srv" "/dav" "/dav/a" = some "/srv/a" ∧
    envC4.fsStat "/srv/a" = StatRes.ok true ∧
    (serveHTTP wdC4 envC4 rC4).statCalls = ["/srv/dav/a"] ∧
    (serveHTTP wdC4 envC4 rC4).statCalls ≠ ["/srv/a"] ∧
    (serveHTTP wdC4 envC4 rC4).request2.method = "GET" := by
  refine ⟨rfl, rfl, rfl, ?_, rfl⟩
  decide

/-- Claim C4 as amended: the configured base path is only handed to the
underlying webdav.Handler (whose own resolution strips it); the adapter
itself checks the unstripped URL path: its GET and HEAD directory check
Stats the URL path resolved against the root with no stripping, and its
PUT and POST parent check Stats the directory part of the unstripped URL
path appended to the root. -/
theorem c4_amended_unstripped_paths (wd : WebDAVModule) (env : Env) (r : Request) :
    (serveHTTP wd env r).handler.pfx = env.repl wd.pfx "" ∧
    ((r.method = "GET" ∨ r.method = "HEAD") →
      (serveHTTP wd env r).statCalls = (dirResolve (env.repl wd.root ".") r.urlPath).toList) ∧
    ((r.method = "PUT" ∨ r.method = "POST") →
      (serveHTTP wd env r).statCalls = [env.repl wd.root "." ++ goPathDir r.urlPath]) := by
  by_cases h1 : r.method = "GET" ∨ r.method = "HEAD"
  · unfold serveHTTP
    rw [if_pos h1]
    refine ⟨rfl, fun _ => ?_, fun hc => absurd h1 (put_post_not_get_head hc)⟩
    show (dirStat env.fsStat (env.repl wd.root ".") r.urlPath).1.toList =
      (dirResolve (env.repl wd.root ".") r.urlPath).toList
    rw [dirStat_fst]
  · by_cases h2 : r.method = "PUT" ∨ r.method = "POST"
    · unfold serveHTTP
      rw [if_neg h1, if_pos h2]
      by_cases h3 : env.fsStat (env.repl wd.root "." ++ goPathDir r.urlPath) = StatRes.notExist
      · rw [if_pos h3]
        cases hmk : env.mkdirAllErr <;>
          exact ⟨rfl, fun hc => absurd hc h1, fun _ => rfl⟩
      · rw [if_neg h3]
        exact ⟨rfl, fun hc => absurd hc h1, fun _ => rfl⟩
    · unfold serveHTTP
      rw [if_neg h1, if_neg h2]
      exact ⟨rfl, fun hc => absurd hc h1, fun hc => absurd hc h2⟩

def rC4put : Request := ⟨"PUT", "/dav/x/y.txt", []⟩

/-- Witness for the amended C4: the adapter Stat paths at a concrete GET
and a concrete PUT under a configured base path keep the base unstripped. -/
theorem c4_amended_unstripped_paths_witness :
    (serveHTTP wdC4 envC4 rC4).statCalls = ["/srv/dav/a"] ∧
    (serveHTTP wdC4 envC4 rC4put).statCalls = ["/srv/dav/x"] ∧
    (serveHTTP wdC4 envC4 rC4).handler.pfx = "/dav" :=
  have hg := c4_amended_unstripped_paths wdC4 envC4 rC4
  have hp := c4_amended_unstripped_paths wdC4 envC4 rC4put
  ⟨hg.2.1 (Or.inl rfl), hp.2.2 (Or.inl rfl), hg.1⟩

/-- Claim C6: the logging callback emits an entry exactly when the error is
non-nil, and the protocol outcome of a request (writer state, returned
error, delegated request and filesystem mutations) is unchanged whatever
error the delegated handler reports to the callback. -/
theorem c6_logger_frame (e : Option String) (wd : WebDAVModule) (env : Env) (r : Request) :
    (loggerCallback e = [] ↔ e = none) ∧
    (serveHTTP wd { env with delegateErr := e } r).rw =
      (serveHTTP wd { env with delegateErr := none } r).rw ∧
    (serveHTTP wd { env with delegateErr := e } r).ret =
      (serveHTTP wd { env with delegateErr := none } r).ret ∧
    (serveHTTP wd { env with delegateErr := e } r).request2 =
      (serveHTTP wd { env with delegateErr := none } r).request2 ∧
    (serveHTTP wd { env with delegateErr := e } r).mkdirCalls =
      (serveHTTP wd { env with delegateErr := none } r).mkdirCalls := by
  refine ⟨by cases e <;> simp [loggerCallback], ?_⟩
  rcases env with ⟨rp, fs, mke, del, derr⟩
  unfold serveHTTP
  dsimp only
  by_cases h1 : r.method = "GET" ∨ r.method = "HEAD"
  · rw [if_pos h1, if_pos h1]
    exact ⟨rfl, rfl, rfl, rfl⟩
  · rw [if_neg h1, if_neg h1]
    by_cases h2 : r.method = "PUT" ∨ r.method = "POST"
    · rw [if_pos h2, if_pos h2]
      by_cases h3 : fs (rp wd.root "." ++ goPathDir r.urlPath) = StatRes.notExist
      · rw [if_pos h3, if_pos h3]
        cases mke <;> exact ⟨rfl, rfl, rfl, rfl⟩
      · rw [if_neg h3, if_neg h3]
        exact ⟨rfl, rfl, rfl, rfl⟩
    · rw [if_neg h2, if_neg h2]
      exact ⟨rfl, rfl, rfl, rfl⟩

/-- Claim C7: Provision installs a fresh empty in-memory lock system (so a
restart starts from no locks), and the handler value built for every
request carries exactly that lock system of the module instance. -/
theorem c7_single_lock_system (wd : WebDAVModule) (env : Env) (r : Request) :
    (provision wd).lockSystem = some memLSEmpty ∧
    (serveHTTP (provision wd) env r).handler.lockSystem = (provision wd).lockSystem := by
  refine ⟨rfl, ?_⟩
  unfold serveHTTP
  by_cases h1 : r.method = "GET" ∨ r.method = "HEAD"
  · rw [if_pos h1]; rfl
  · rw [if_neg h1]
    by_cases h2 : r.method = "PUT" ∨ r.method = "POST"
    · rw [if_pos h2]
      by_cases h3 : env.fsStat (env.repl (provision wd).root "." ++ goPathDir r.urlPath) =
          StatRes.notExist
      · rw [if_pos h3]
        cases hmk : env.mkdirAllErr <;> rfl
      · rw [if_neg h3]; rfl
    · rw [if_neg h2]; rfl

/-- The walk to the root starts at the walked name itself. -/
theorem parentChain_cons (q : String) : ∃ rest, parentChain q = q :: rest := by
  by_cases hr : q = "/"
  · exact ⟨[], by rw [hr]; decide⟩
  · refine ⟨chainAux q.length (parentOf q), ?_⟩
    show chainAux (q.length + 1) q = q :: chainAux q.length (parentOf q)
    show (if q = "/" then ["/"] else q :: chainAux q.length (parentOf q)) =
      q :: chainAux q.length (parentOf q)
    rw [if_neg hr]

def sC8 : MemLS := (memCreate memLSEmpty "/a" true).1

/-- Counterexample to C8: the lock system the handler installs knows no
shared scope at all: the xml codec answers any shared lock request with
501 Not Implemented, and a second lock on an already locked path is always
refused, so two locks on the same path never coexist. -/
theorem c8_counterexample :
    readLockInfoStatus ⟨false, true, true⟩ = 501 ∧
    (memCreate memLSEmpty "/a" true).2 = some "1" ∧
    (memCreate sC8 "/a" true).2 = none := by
  refine ⟨rfl, ?_, ?_⟩ <;> decide

/-- Claim C8 as amended: at most one lock holds on any path at a time:
while a node of the lock table holds a token on a path, Create on that
path fails, whatever depth is requested; and only exclusive write locks
are supported, a lock request marked shared being answered with 501, so
shared locks never exist, let alone coexist. -/
theorem c8_lock_exclusivity (s : MemLS) (p : String) (zd : Bool) (n : MemNode)
    (hl : lookupNode s.byName (slashClean p) = some n) (ht : n.token ≠ "") :
    (memCreate s p zd).2 = none ∧
    (∀ li : LockInfo, li.shared = true → readLockInfoStatus li = 501) := by
  constructor
  · have hcc : canCreate s.byName (slashClean p) zd = false := by
      unfold canCreate
      rcases parentChain_cons (slashClean p) with ⟨rest, hres⟩
      rw [hres]
      show ((match lookupNode s.byName (slashClean p) with
        | none => true
        | some n =>
          if n.token ≠ "" then false
          else if zd = false then false
          else true)
        && canCreateAux s.byName zd rest false) = false
      rw [hl]
      simp [ht]
    have hcc2 : ¬ (canCreate s.byName (slashClean p) zd = true) := by
      rw [hcc]; exact Bool.false_ne_true
    unfold memCreate
    rw [if_neg hcc2]
  · intro li hsh
    unfold readLockInfoStatus
    rw [if_pos (Or.inr (Or.inl hsh))]

/-- Witness for the amended C8: with a lock held on a path, a second
Create on it fails, and a concrete shared lock request is answered 501. -/
theorem c8_lock_exclusivity_witness :
    (memCreate sC8 "/a" false).2 = none ∧
    readLockInfoStatus ⟨true, true, true⟩ = 501 :=
  have h := c8_lock_exclusivity sC8 "/a" false ⟨"1", 1, true⟩ (by decide) (by decide)
  ⟨h.1, h.2 ⟨true, true, true⟩ rfl⟩

end CaddyWebdav
